import Mathlib

/-!
# Verification of the AiDUT browser client (`app/static/js/main.js`)

This file gives a shallow embedding of the client-side logic of the AiDUT
repository — the streaming event decoder inside `executeTask`, the
`handleStepResult` render dispatch, the wireless-pairing poll handlers, and
the two recurring timers — and proves properties of that embedding.

Modelling conventions:

* Text is modelled as a list of Unicode code points (`List Nat`); raw bytes
  as a `List Nat` of values `< 256`.
* The browser's `TextDecoder` used with `{stream: true}` is a platform
  primitive, modelled by `decodeLoop`: a stateful incremental UTF-8 decoder
  that retains a trailing incomplete multi-byte sequence as pending state.
  It agrees with the WHATWG decoder on all well-formed input; on ill-formed
  input it emits U+FFFD like the real decoder but may differ in how many
  replacement characters a garbled sequence produces (no theorem below
  depends on ill-formed input).
* `JSON.parse` is a platform primitive; it is modelled as an arbitrary
  parameter `parse : List Nat → Option α` (a parse failure is `none`),
  so every theorem about the stream pipeline holds for the real parser.
* DOM presentation (CSS classes, innerHTML construction, scrolling, icons)
  is excluded from the model per the scope of the system: the chat log,
  toasts, status line and device frame are kept as abstract state fields.
-/

/-! ## Incremental UTF-8 decoding (model of `TextDecoder` with `stream: true`) -/

/-- Number of bytes in the UTF-8 sequence started by lead byte `b`
(`0` when `b` cannot start a sequence). -/
def leadLen (b : Nat) : Nat :=
  if b < 0x80 then 1
  else if b < 0xC0 then 0
  else if b < 0xE0 then 2
  else if b < 0xF0 then 3
  else if b < 0xF8 then 4
  else 0

/-- Is `b` a UTF-8 continuation byte? -/
def isCont (b : Nat) : Bool := decide (0x80 ≤ b) && decide (b < 0xC0)

/-- Code point encoded by a complete UTF-8 sequence (lead byte plus its
continuation bytes). -/
def seqVal : List Nat → Nat
  | [b] => b
  | [b, c1] => (b - 0xC0) * 64 + (c1 - 0x80)
  | [b, c1, c2] => (b - 0xE0) * 4096 + (c1 - 0x80) * 64 + (c2 - 0x80)
  | [b, c1, c2, c3] =>
      (b - 0xF0) * 262144 + (c1 - 0x80) * 4096 + (c2 - 0x80) * 64 + (c3 - 0x80)
  | _ => 0xFFFD

/-- One pass of the incremental decoder over the bytes available so far:
returns the decoded code points together with the trailing bytes of an
incomplete multi-byte sequence, which the decoder retains as its state. -/
def decodeLoop : List Nat → List Nat × List Nat
  | [] => ([], [])
  | b :: rest =>
    let n := leadLen b
    if n = 0 then
      let r := decodeLoop rest
      (0xFFFD :: r.1, r.2)
    else if rest.length + 1 < n then
      ([], b :: rest)
    else if (rest.take (n - 1)).all isCont then
      let r := decodeLoop (rest.drop (n - 1))
      (seqVal (b :: rest.take (n - 1)) :: r.1, r.2)
    else
      let r := decodeLoop rest
      (0xFFFD :: r.1, r.2)
termination_by l => l.length
decreasing_by
  all_goals first | (simp; omega) | simp

theorem decodeLoop_nil : decodeLoop [] = ([], []) := by
  rw [decodeLoop.eq_def]

theorem decodeLoop_cons (b : Nat) (rest : List Nat) :
    decodeLoop (b :: rest) =
      if leadLen b = 0 then
        ((0xFFFD : Nat) :: (decodeLoop rest).1, (decodeLoop rest).2)
      else if rest.length + 1 < leadLen b then ([], b :: rest)
      else if (rest.take (leadLen b - 1)).all isCont then
        (seqVal (b :: rest.take (leadLen b - 1)) ::
           (decodeLoop (rest.drop (leadLen b - 1))).1,
         (decodeLoop (rest.drop (leadLen b - 1))).2)
      else ((0xFFFD : Nat) :: (decodeLoop rest).1, (decodeLoop rest).2) := by
  rw [decodeLoop.eq_def]

/-- The incremental decoder is online: decoding `xs ++ ys` yields the output
of decoding `xs` followed by the output of decoding `ys` fed after the
pending state left by `xs`. -/
theorem decodeLoop_append (xs ys : List Nat) :
    decodeLoop (xs ++ ys) =
      ((decodeLoop xs).1 ++ (decodeLoop ((decodeLoop xs).2 ++ ys)).1,
       (decodeLoop ((decodeLoop xs).2 ++ ys)).2) := by
  generalize hk : xs.length = k
  induction k using Nat.strong_induction_on generalizing xs ys with
  | _ k ih =>
    match xs with
    | [] => simp [decodeLoop_nil]
    | b :: rest =>
      by_cases h0 : leadLen b = 0
      · rw [List.cons_append, decodeLoop_cons, decodeLoop_cons b rest]
        simp only [h0, if_true]
        rw [ih rest.length (by simp [← hk]) rest ys rfl]
        simp
      · by_cases hlen : rest.length + 1 < leadLen b
        · -- incomplete inside `xs`: everything is replayed as pending state
          rw [decodeLoop_cons b rest]
          simp only [h0, if_false, if_pos hlen]
          simp
        · rw [List.cons_append, decodeLoop_cons, decodeLoop_cons b rest]
          have hc : ¬ ((rest ++ ys).length + 1 < leadLen b) := by
            simp only [List.length_append]; omega
          simp only [h0, if_false, if_neg hlen, if_neg hc]
          have hle : leadLen b - 1 ≤ rest.length := by omega
          rw [List.take_append_of_le_length hle,
              List.drop_append_of_le_length hle]
          by_cases hcont : (rest.take (leadLen b - 1)).all isCont
          · simp only [if_pos hcont]
            rw [ih (rest.drop (leadLen b - 1)).length
              (by simp [← hk]; omega)
              (rest.drop (leadLen b - 1)) ys rfl]
            simp
          · simp only [if_neg hcont]
            rw [ih rest.length (by simp [← hk]) rest ys rfl]
            simp

/-- UTF-8 encoding of one code point (scalar values only produce well-formed
sequences; used to state which byte streams are encodings of text). -/
def encodeCp (c : Nat) : List Nat :=
  if c < 0x80 then [c]
  else if c < 0x800 then [0xC0 + c / 64, 0x80 + c % 64]
  else if c < 0x10000 then
    [0xE0 + c / 4096, 0x80 + (c / 64) % 64, 0x80 + c % 64]
  else
    [0xF0 + c / 262144, 0x80 + (c / 4096) % 64, 0x80 + (c / 64) % 64,
     0x80 + c % 64]

/-- UTF-8 encoding of a sequence of code points. -/
def encodeAll (cps : List Nat) : List Nat := (cps.map encodeCp).flatten

/-- Decoding inverts encoding, one code point at a time. -/
theorem decodeLoop_encodeCp (c : Nat) (hc : c < 0x110000) (rest : List Nat) :
    decodeLoop (encodeCp c ++ rest) = (c :: (decodeLoop rest).1, (decodeLoop rest).2) := by
  by_cases h1 : c < 0x80
  · have e : encodeCp c = [c] := by simp [encodeCp, h1]
    have hl : leadLen c = 1 := by simp [leadLen, h1]
    rw [e]
    show decodeLoop (c :: rest) = _
    rw [decodeLoop_cons]
    simp [hl, seqVal]
  · by_cases h2 : c < 0x800
    · have e : encodeCp c = [0xC0 + c / 64, 0x80 + c % 64] := by
        simp [encodeCp, h1, h2]
      have hl : leadLen (0xC0 + c / 64) = 2 := by
        unfold leadLen
        rw [if_neg (by omega), if_neg (by omega), if_pos (by omega)]
      have hcont : isCont (0x80 + c % 64) = true := by
        simp only [isCont, Bool.and_eq_true, decide_eq_true_eq]
        omega
      have hseq : seqVal [0xC0 + c / 64, 0x80 + c % 64] = c := by
        simp only [seqVal]; omega
      rw [e]
      show decodeLoop ((0xC0 + c / 64) :: (0x80 + c % 64) :: rest) = _
      rw [decodeLoop_cons]
      simp [hl, hcont, hseq]
    · by_cases h3 : c < 0x10000
      · have e : encodeCp c =
            [0xE0 + c / 4096, 0x80 + (c / 64) % 64, 0x80 + c % 64] := by
          simp [encodeCp, h1, h2, h3]
        have hl : leadLen (0xE0 + c / 4096) = 3 := by
          unfold leadLen
          rw [if_neg (by omega), if_neg (by omega), if_neg (by omega),
              if_pos (by omega)]
        have hc1 : isCont (0x80 + (c / 64) % 64) = true := by
          simp only [isCont, Bool.and_eq_true, decide_eq_true_eq]; omega
        have hc2 : isCont (0x80 + c % 64) = true := by
          simp only [isCont, Bool.and_eq_true, decide_eq_true_eq]; omega
        have hseq : seqVal [0xE0 + c / 4096, 0x80 + (c / 64) % 64,
            0x80 + c % 64] = c := by
          simp only [seqVal]; omega
        rw [e]
        show decodeLoop ((0xE0 + c / 4096) :: (0x80 + (c / 64) % 64) ::
          (0x80 + c % 64) :: rest) = _
        rw [decodeLoop_cons]
        simp [hl, hc1, hc2, hseq]
      · have e : encodeCp c =
            [0xF0 + c / 262144, 0x80 + (c / 4096) % 64, 0x80 + (c / 64) % 64,
             0x80 + c % 64] := by
          simp [encodeCp, h1, h2, h3]
        have hl : leadLen (0xF0 + c / 262144) = 4 := by
          unfold leadLen
          rw [if_neg (by omega), if_neg (by omega), if_neg (by omega),
              if_neg (by omega), if_pos (by omega)]
        have hc1 : isCont (0x80 + (c / 4096) % 64) = true := by
          simp only [isCont, Bool.and_eq_true, decide_eq_true_eq]; omega
        have hc2 : isCont (0x80 + (c / 64) % 64) = true := by
          simp only [isCont, Bool.and_eq_true, decide_eq_true_eq]; omega
        have hc3 : isCont (0x80 + c % 64) = true := by
          simp only [isCont, Bool.and_eq_true, decide_eq_true_eq]; omega
        have hseq : seqVal [0xF0 + c / 262144, 0x80 + (c / 4096) % 64,
            0x80 + (c / 64) % 64, 0x80 + c % 64] = c := by
          simp only [seqVal]; omega
        rw [e]
        show decodeLoop ((0xF0 + c / 262144) :: (0x80 + (c / 4096) % 64) ::
          (0x80 + (c / 64) % 64) :: (0x80 + c % 64) :: rest) = _
        rw [decodeLoop_cons]
        simp [hl, hc1, hc2, hc3, hseq]

/-- Decoding the encoding of a sequence of scalar values gives the sequence
back, with no pending bytes. -/
theorem decodeLoop_encodeAll (cps : List Nat) (h : ∀ c ∈ cps, c < 0x110000) :
    decodeLoop (encodeAll cps) = (cps, []) := by
  induction cps with
  | nil => simp [encodeAll, decodeLoop_nil]
  | cons c cs ih =>
    have e : encodeAll (c :: cs) = encodeCp c ++ encodeAll cs := by
      simp [encodeAll]
    rw [e, decodeLoop_encodeCp c (h c (by simp)),
        ih (fun x hx => h x (by simp [hx]))]

/-! ## Newline splitting (model of `buffer.split('\n')` and `lines.pop()`) -/

/-- Model of JavaScript `text.split('\n')` on code-point sequences: always
returns at least one (possibly empty) segment. -/
def splitNl : List Nat → List (List Nat)
  | [] => [[]]
  | c :: rest =>
    let r := splitNl rest
    if c = 10 then [] :: r
    else (c :: r.headD []) :: r.tail

/-- Model of `lines.pop() || ''`: the final (possibly incomplete) segment. -/
def lastSeg (l : List Nat) : List Nat := (splitNl l).getLastD []

/-- The complete lines: every segment except the final one. -/
def completeLines (l : List Nat) : List (List Nat) := (splitNl l).dropLast

theorem splitNl_ne_nil (l : List Nat) : splitNl l ≠ [] := by
  cases l with
  | nil => simp [splitNl]
  | cons c rest =>
    simp only [splitNl]
    split <;> simp

theorem headD_cons_tail {α : Type} (d : α) (l : List α) (h : l ≠ []) :
    l.headD d :: l.tail = l := by
  cases l with
  | nil => exact absurd rfl h
  | cons x xs => rfl

theorem dropLast_cons_ne {α : Type} (x : α) (l : List α) (h : l ≠ []) :
    (x :: l).dropLast = x :: l.dropLast := by
  cases l with
  | nil => exact absurd rfl h
  | cons y ys => rfl

theorem getLastD_cons' {α : Type} (x d : α) (l : List α) (h : l ≠ []) :
    (x :: l).getLastD d = l.getLastD d := by
  cases l with
  | nil => exact absurd rfl h
  | cons y ys => simp [List.getLastD_cons]

theorem getLastD_append_ne {α : Type} (u v : List α) (d : α) (h : v ≠ []) :
    (u ++ v).getLastD d = v.getLastD d := by
  induction u with
  | nil => rfl
  | cons x xs ih =>
    have hne : xs ++ v ≠ [] := by
      intro hc
      exact h (List.append_eq_nil.mp hc).2
    rw [List.cons_append, getLastD_cons' x d _ hne, ih]

theorem dropLast_append_ne {α : Type} (u v : List α) (h : v ≠ []) :
    (u ++ v).dropLast = u ++ v.dropLast := by
  induction u with
  | nil => rfl
  | cons x xs ih =>
    have hne : xs ++ v ≠ [] := by
      intro hc
      exact h (List.append_eq_nil.mp hc).2
    rw [List.cons_append, dropLast_cons_ne x _ hne, ih, List.cons_append]

theorem splitNl_cons (c : Nat) (rest : List Nat) :
    splitNl (c :: rest) =
      if c = 10 then [] :: splitNl rest
      else (c :: (splitNl rest).headD []) :: (splitNl rest).tail := rfl

/-- Splitting a concatenation: the completed segments of `a`, then the last
segment of `a` glued onto the first segment of `b`, then the rest of `b`. -/
theorem splitNl_append (a b : List Nat) :
    splitNl (a ++ b) =
      (splitNl a).dropLast ++
        ((((splitNl a).getLastD []) ++ (splitNl b).headD []) ::
          (splitNl b).tail) := by
  induction a with
  | nil =>
    have h1 : splitNl ([] : List Nat) = [[]] := rfl
    have h2 : ([[]] : List (List Nat)).getLastD [] = [] := rfl
    rw [List.nil_append, h1, h2, List.dropLast_single, List.nil_append,
        List.nil_append, headD_cons_tail [] (splitNl b) (splitNl_ne_nil b)]
  | cons c a ih =>
    rw [List.cons_append, splitNl_cons c (a ++ b), splitNl_cons c a]
    by_cases hc : c = 10
    · rw [if_pos hc, if_pos hc, ih]
      rw [dropLast_cons_ne _ _ (splitNl_ne_nil a),
          getLastD_cons' _ _ _ (splitNl_ne_nil a)]
      simp
    · rw [if_neg hc, if_neg hc, ih]
      rcases hs : splitNl a with _ | ⟨x, xs⟩
      · exact absurd hs (splitNl_ne_nil a)
      · cases xs with
        | nil =>
          simp [List.cons_append]
        | cons y ys =>
          simp only [List.headD_cons, List.tail_cons]
          rw [dropLast_cons_ne (c :: x) (y :: ys) (by simp),
              getLastD_cons' (c :: x) [] (y :: ys) (by simp)]
          simp [List.cons_append]

theorem splitNl_no10 (l : List Nat) (h : 10 ∉ l) : splitNl l = [l] := by
  induction l with
  | nil => rfl
  | cons c rest ih =>
    have hc : c ≠ 10 := fun hc => h (by simp [hc])
    have hr : splitNl rest = [rest] := ih (fun hm => h (by simp [hm]))
    rw [splitNl_cons, if_neg hc, hr]
    rfl

/-- The final segment of a split never contains the separator. -/
theorem lastSeg_no10 (l : List Nat) : 10 ∉ lastSeg l := by
  induction l with
  | nil => simp [lastSeg, splitNl]
  | cons c rest ih =>
    unfold lastSeg at *
    rw [splitNl_cons]
    by_cases hc : c = 10
    · rw [if_pos hc, getLastD_cons' _ _ _ (splitNl_ne_nil rest)]
      exact ih
    · rw [if_neg hc]
      rcases hs : splitNl rest with _ | ⟨x, xs⟩
      · exact absurd hs (splitNl_ne_nil rest)
      · cases xs with
        | nil =>
          rw [hs] at ih
          simp only [List.headD_cons, List.tail_cons]
          have hgl : ([c :: x] : List (List Nat)).getLastD [] = c :: x := rfl
          rw [hgl]
          intro hm
          rcases List.mem_cons.mp hm with hm | hm
          · exact hc hm.symm
          · exact ih hm
        | cons y ys =>
          simp only [List.headD_cons, List.tail_cons]
          rw [getLastD_cons' (c :: x) [] (y :: ys) (by simp)]
          rw [hs, getLastD_cons' x [] (y :: ys) (by simp)] at ih
          exact ih

/-- Feeding more text into the buffer: the retained final segment composes. -/
theorem lastSeg_append (x y : List Nat) :
    lastSeg (x ++ y) = lastSeg (lastSeg x ++ y) := by
  have hno : 10 ∉ lastSeg x := lastSeg_no10 x
  unfold lastSeg at hno ⊢
  rw [splitNl_append x y,
      splitNl_append ((splitNl x).getLastD []) y,
      splitNl_no10 _ hno]
  rw [getLastD_append_ne _ _ _ (by simp), getLastD_append_ne _ _ _ (by simp)]
  rfl

/-- Feeding more text into the buffer: the completed lines compose. -/
theorem completeLines_append (x y : List Nat) :
    completeLines (x ++ y) = completeLines x ++ completeLines (lastSeg x ++ y) := by
  have hno : 10 ∉ lastSeg x := lastSeg_no10 x
  unfold completeLines lastSeg at hno ⊢
  rw [splitNl_append x y,
      splitNl_append ((splitNl x).getLastD []) y,
      splitNl_no10 _ hno]
  rw [dropLast_append_ne _ _ (by simp)]
  rfl

theorem splitNl_line (l t : List Nat) (h : 10 ∉ l) :
    splitNl (l ++ 10 :: t) = l :: splitNl t := by
  induction l with
  | nil =>
    rw [List.nil_append, splitNl_cons, if_pos rfl]
  | cons c l ih =>
    have hc : c ≠ 10 := fun hc => h (by simp [hc])
    have hr := ih (fun hm => h (by simp [hm]))
    rw [List.cons_append, splitNl_cons, if_neg hc, hr]
    simp

/-- Splitting a sequence of newline-terminated lines recovers the lines,
plus one trailing empty segment. -/
theorem splitNl_joinLines (lines : List (List Nat))
    (h : ∀ l ∈ lines, 10 ∉ l) :
    splitNl ((lines.map (fun l => l ++ [10])).flatten) = lines ++ [[]] := by
  induction lines with
  | nil => rfl
  | cons l ls ih =>
    have e : ((l :: ls).map (fun l => l ++ [10])).flatten
        = l ++ 10 :: ((ls.map (fun l => l ++ [10])).flatten) := by
      simp
    rw [e, splitNl_line l _ (h l (by simp)), ih (fun x hx => h x (by simp [hx]))]
    rfl

/-! ## The execution-stream reader of `executeTask` (main.js lines 586-608)

State carried across `reader.read()` iterations: the `TextDecoder`'s pending
bytes and the `buffer` string; the records decoded so far are collected in
arrival order. -/

structure DecSt (α : Type) where
  pending : List Nat
  buffer : List Nat
  recs : List α
deriving DecidableEq

/-- The code points of the literal line prefix checked by
`line.startsWith('data: ')`. -/
def dataMark : List Nat := [100, 97, 116, 97, 58, 32]

/-- One complete line: a record is produced only for lines starting with
`data: `, by parsing the remainder after `line.slice(6)`; any other line
yields nothing, and a parse failure (`none`) drops the line. -/
def lineRecord {α : Type} (parse : List Nat → Option α) (line : List Nat) :
    Option α :=
  if dataMark.isPrefixOf line then parse (line.drop 6) else none

/-- One iteration of the read loop body on an incoming chunk:
`buffer += decoder.decode(value, {stream: true})`, split on newline,
`buffer = lines.pop() || ''`, and each complete line is processed. -/
def feedChunk {α : Type} (parse : List Nat → Option α) (st : DecSt α)
    (chunk : List Nat) : DecSt α :=
  let d := decodeLoop (st.pending ++ chunk)
  let buf := st.buffer ++ d.1
  { pending := d.2,
    buffer := lastSeg buf,
    recs := st.recs ++ (completeLines buf).filterMap (lineRecord parse) }

def initDecSt {α : Type} : DecSt α := ⟨[], [], []⟩

/-- The whole read loop over the successive chunks of one response body. -/
def runChunks {α : Type} (parse : List Nat → Option α)
    (chunks : List (List Nat)) : DecSt α :=
  chunks.foldl (feedChunk parse) initDecSt

/-- Feeding two chunks one after the other is the same as feeding their
concatenation. -/
theorem feedChunk_append {α : Type} (parse : List Nat → Option α)
    (st : DecSt α) (a b : List Nat) :
    feedChunk parse (feedChunk parse st a) b = feedChunk parse st (a ++ b) := by
  unfold feedChunk
  have hdec : decodeLoop (st.pending ++ (a ++ b)) =
      ((decodeLoop (st.pending ++ a)).1 ++
         (decodeLoop ((decodeLoop (st.pending ++ a)).2 ++ b)).1,
       (decodeLoop ((decodeLoop (st.pending ++ a)).2 ++ b)).2) := by
    rw [← List.append_assoc, decodeLoop_append (st.pending ++ a) b]
  simp only [hdec, DecSt.mk.injEq]
  refine ⟨trivial, ?_, ?_⟩
  · rw [← List.append_assoc st.buffer,
        lastSeg_append (st.buffer ++ (decodeLoop (st.pending ++ a)).1)]
  · rw [← List.append_assoc st.buffer,
        completeLines_append (st.buffer ++ (decodeLoop (st.pending ++ a)).1)]
    rw [List.filterMap_append, List.append_assoc]

theorem feedChunk_init_nil {α : Type} (parse : List Nat → Option α) :
    feedChunk parse initDecSt [] = initDecSt := by
  unfold feedChunk initDecSt
  simp [decodeLoop_nil, lastSeg, completeLines, splitNl]

/-- The read loop depends only on the concatenation of the chunks. -/
theorem runChunks_eq_single {α : Type} (parse : List Nat → Option α)
    (chunks : List (List Nat)) :
    runChunks parse chunks = feedChunk parse initDecSt chunks.flatten := by
  have key : ∀ (cs : List (List Nat)) (st : DecSt α) (c : List Nat),
      List.foldl (feedChunk parse) (feedChunk parse st c) cs =
        feedChunk parse st (c ++ cs.flatten) := by
    intro cs
    induction cs with
    | nil => intro st c; simp
    | cons c2 cs ih =>
      intro st c
      rw [List.foldl_cons, ih (feedChunk parse st c) c2, feedChunk_append]
      simp
  cases chunks with
  | nil =>
    rw [runChunks]
    simp [feedChunk_init_nil]
  | cons c cs =>
    rw [runChunks, List.foldl_cons, key cs initDecSt c]
    simp

/-- The byte stream of a sequence of newline-terminated text lines. -/
def encodeLines (lines : List (List Nat)) : List Nat :=
  encodeAll ((lines.map (fun l => l ++ [10])).flatten)

/-- Running the reader over any chunking of the encoded lines decodes every
line, drops the trailing empty segment, and leaves no pending state. -/
theorem runChunks_encodeLines {α : Type} (parse : List Nat → Option α)
    (lines : List (List Nat))
    (hl : ∀ l ∈ lines, ∀ c ∈ l, c < 0x110000 ∧ c ≠ 10)
    (chunks : List (List Nat)) (hc : chunks.flatten = encodeLines lines) :
    runChunks parse chunks = ⟨[], [], lines.filterMap (lineRecord parse)⟩ := by
  rw [runChunks_eq_single, hc]
  have hv : ∀ c ∈ (lines.map (fun l => l ++ [10])).flatten, c < 0x110000 := by
    intro c hm
    rcases List.mem_flatten.mp hm with ⟨l, hl1, hcl⟩
    rcases List.mem_map.mp hl1 with ⟨l0, hl0, rfl⟩
    rcases List.mem_append.mp hcl with h | h
    · exact (hl l0 hl0 c h).1
    · simp at h; omega
  have h10 : ∀ l ∈ lines, 10 ∉ l := fun l hl0 hm => ((hl l hl0 10 hm).2 rfl)
  have hsplit : splitNl ((lines.map (fun l => l ++ [10])).flatten)
      = lines ++ [[]] := splitNl_joinLines lines h10
  unfold feedChunk initDecSt encodeLines
  simp only
  rw [List.nil_append, decodeLoop_encodeAll _ hv]
  simp only
  rw [List.nil_append, DecSt.mk.injEq]
  refine ⟨rfl, ?_, ?_⟩
  · unfold lastSeg
    rw [hsplit, getLastD_append_ne _ _ _ (by simp)]
    rfl
  · unfold completeLines
    rw [hsplit, dropLast_append_ne _ _ (by simp)]
    simp

/-- C1: for every fixed finite sequence of newline-terminated stream lines and
every fragmentation of their encoded bytes into successive chunks (including
splits mid-line and mid-multibyte character), the execution stream reader of
`executeTask` produces the same ordered sequence of records as any other
fragmentation, namely the records of the `data: `-prefixed lines in strict
arrival order.
-/
theorem exec_stream_fragmentation_invariant {α : Type}
    (parse : List Nat → Option α) (lines chunks1 chunks2 : List (List Nat))
    (h1 : chunks1.flatten = encodeLines lines)
    (h2 : chunks2.flatten = encodeLines lines)
    (hl : ∀ l ∈ lines, ∀ c ∈ l, c < 0x110000 ∧ c ≠ 10) :
    (runChunks parse chunks1).recs = (runChunks parse chunks2).recs ∧
    (runChunks parse chunks1).recs = lines.filterMap (lineRecord parse) := by
  have k1 := runChunks_encodeLines parse lines hl chunks1 h1
  have k2 := runChunks_encodeLines parse lines hl chunks2 h2
  rw [k1, k2]
  exact ⟨rfl, rfl⟩

/-- Witness for C1 at a concrete input: the line `data: é` (the `é` is a
two-byte character) fed once split mid-character, once as a single chunk. -/
theorem exec_stream_fragmentation_invariant_witness :
    (runChunks (fun l => some l)
        [[100, 97, 116, 97, 58, 32, 195], [169, 10]]).recs
      = (runChunks (fun l => some l)
          [[100, 97, 116, 97, 58, 32, 195, 169, 10]]).recs ∧
    (runChunks (fun l => some l)
        [[100, 97, 116, 97, 58, 32, 195], [169, 10]]).recs
      = [[100, 97, 116, 97, 58, 32, 233]].filterMap
          (lineRecord (fun l => some l)) :=
  exec_stream_fragmentation_invariant (fun l => some l)
    [[100, 97, 116, 97, 58, 32, 233]]
    [[100, 97, 116, 97, 58, 32, 195], [169, 10]]
    [[100, 97, 116, 97, 58, 32, 195, 169, 10]]
    (by decide) (by decide) (by decide)

/-! ## Application state (class `AIPhoneAssistant`)

Timers: JavaScript `setInterval` returns a fresh handle and registers a
live recurring callback; `clearInterval(id)` removes it. The world below
tracks the set of live intervals, tagged by which callback was registered
(screen refresh, main.js line 483, or wireless-status poll, line 266).
Handles are modelled as consecutive `Nat` ids (browser handles are nonzero,
so the JS truthiness test `if (this.xxxInterval)` is the `Option` test). -/

inductive TKind where
  | screen
  | wireless
deriving DecidableEq

structure TimerWorld where
  nextId : Nat
  live : List (Nat × TKind)
deriving DecidableEq

def setIntervalW (k : TKind) (w : TimerWorld) : Nat × TimerWorld :=
  (w.nextId, ⟨w.nextId + 1, w.live ++ [(w.nextId, k)]⟩)

def clearIntervalW (i : Nat) (w : TimerWorld) : TimerWorld :=
  ⟨w.nextId, w.live.filter (fun p => p.1 != i)⟩

/-- One entry of the chat container (`this.chatContainer` children):
a user/assistant message (`addMessage`), a system message of a given type
(`addSystemMessage`, optionally carrying an action payload and a debug
payload), or the transient thinking placeholder (`updateOrAddThinking`). -/
inductive Entry where
  | message (role : String) (text : String)
  | system (mtype : String) (text : String) (action : Option String)
      (debug : Option (String × String))
  | thinking (text : String)
deriving DecidableEq

/-- One decoded stream record as consumed by `handleStepResult`:
`{type, message?, screenshot?, action?, debug?}`. An absent `message` is
modelled as `""` (the rendering helpers map absent text to empty), the
`action` payload is kept opaque as its serialized form, `debug` as the
`(user_message, raw_response)` pair. -/
structure StepData where
  type : String
  message : String
  screenshot : Option String
  action : Option String
  debug : Option (String × String)
deriving DecidableEq

/-- One `/api/device/wireless/status` response body:
`{success, status, message?, device_ip?, device_port?}`; absent string
fields are modelled as `""` (the code reads `data.message || ''` and uses
`device_ip`/`device_port` only on `connected`). -/
structure WData where
  success : Bool
  status : String
  message : String
  device_ip : String
  device_port : String
deriving DecidableEq

/-- The mutable state of the client. DOM presentation is abstracted:
`chat` is the ordered chat container, `toasts` the toast log,
`deviceScreen` the current frame source, `wirelessStatusMsg`/`Type` the
pairing status line, `wirelessDeviceText` the paired-device label.
Outbound network requests are recorded: `connectCalls` the serials POSTed
to `/api/device/connect`, `executeCalls` the tasks POSTed to
`/api/chat/execute`, `refreshCalls` the number of `/api/device/screenshot`
fetches issued. -/
structure AppState where
  world : TimerWorld
  screenRefreshInterval : Option Nat
  wirelessPollingInterval : Option Nat
  isConnected : Bool
  isExecuting : Bool
  inputDisabled : Bool
  welcomeShown : Bool
  chat : List Entry
  deviceScreen : Option String
  toasts : List (String × String)
  wirelessStatusMsg : String
  wirelessStatusType : String
  wirelessDeviceText : Option String
  wirelessSuccessShown : Bool
  connectModalHidden : Bool
  loadingShown : Bool
  connectCalls : List String
  executeCalls : List String
  refreshCalls : Nat
deriving DecidableEq

/-- A fresh page load: no timers, nothing connected, welcome visible. -/
def initApp : AppState where
  world := ⟨1, []⟩
  screenRefreshInterval := none
  wirelessPollingInterval := none
  isConnected := false
  isExecuting := false
  inputDisabled := false
  welcomeShown := true
  chat := []
  deviceScreen := none
  toasts := []
  wirelessStatusMsg := ""
  wirelessStatusType := ""
  wirelessDeviceText := none
  wirelessSuccessShown := false
  connectModalHidden := true
  loadingShown := false
  connectCalls := []
  executeCalls := []
  refreshCalls := 0

/-- Model of `showToast(message, type)` (main.js 758). -/
def showToast (s : AppState) (msg ty : String) : AppState :=
  { s with toasts := s.toasts ++ [(msg, ty)] }

/-- Model of `setExecutingState(executing)` (main.js 378): toggles the send/stop
buttons and enables/disables the input box. -/
def setExecutingState (s : AppState) (executing : Bool) : AppState :=
  { s with isExecuting := executing, inputDisabled := executing }

/-- Model of `refreshScreen()` (main.js 464): guarded by `isConnected`; on success it
issues one `/api/device/screenshot` fetch (the asynchronous response, which
sets the frame, is outside the state transition and is modelled by the
request count). -/
def refreshScreen (s : AppState) : AppState :=
  if ¬ s.isConnected then showToast s "请先连接设备" "warning"
  else { s with refreshCalls := s.refreshCalls + 1 }

/-- Model of `startScreenRefresh()` (main.js 481): refresh once immediately, then
register a recurring 2000ms interval; the stored handle is overwritten
without clearing any previous one. -/
def startScreenRefresh (s : AppState) : AppState :=
  let s1 := refreshScreen s
  let iw := setIntervalW TKind.screen s1.world
  { s1 with world := iw.2, screenRefreshInterval := some iw.1 }

/-- Model of `stopScreenRefresh()` (main.js 490). -/
def stopScreenRefresh (s : AppState) : AppState :=
  match s.screenRefreshInterval with
  | some i => { s with world := clearIntervalW i s.world,
                       screenRefreshInterval := none }
  | none => s

/-- Model of `stopWirelessPolling()` (main.js 280). -/
def stopWirelessPolling (s : AppState) : AppState :=
  match s.wirelessPollingInterval with
  | some i => { s with world := clearIntervalW i s.world,
                       wirelessPollingInterval := none }
  | none => s

/-- Model of `startWirelessPolling()` (main.js 263): always stops any previous poll
first, then registers a recurring 1000ms interval. -/
def startWirelessPolling (s : AppState) : AppState :=
  let s1 := stopWirelessPolling s
  let iw := setIntervalW TKind.wireless s1.world
  { s1 with world := iw.2, wirelessPollingInterval := some iw.1 }

/-- The `data.success` continuation of `connectDevice` (main.js 421-426)
and of `connectWirelessDevice` (main.js 362-367): mark connected, show the
screen, start the recurring screen refresh, toast success. -/
def connectDeviceSuccess (s : AppState) : AppState :=
  let s1 := { s with isConnected := true }
  let s2 := startScreenRefresh s1
  let s3 := showToast s2 "设备连接成功！" "success"
  { s3 with loadingShown := false }

/-- Model of `updateWirelessStatus(message, type)` (main.js 325): status-line text
and style class (the icon is presentation). -/
def updateWirelessStatus (s : AppState) (msg ty : String) : AppState :=
  { s with wirelessStatusMsg := msg, wirelessStatusType := ty }

/-- Model of `showWirelessSuccess(ip, port)` (main.js 341): switch panels and show
the paired device address. -/
def showWirelessSuccess (s : AppState) (ip port : String) : AppState :=
  { s with wirelessSuccessShown := true,
           wirelessDeviceText := some ("设备地址: " ++ ip ++ ":" ++ port) }

/-- Model of `hideConnectModal()` (main.js 128): hide the modal and stop the
wireless poll. -/
def hideConnectModal (s : AppState) : AppState :=
  stopWirelessPolling { s with connectModalHidden := true }

/-- Model of `connectWirelessDevice(ip, port)` (main.js 347) up to issuing the
`/api/device/connect` request with serial `ip:port`; the asynchronous
response continuation is `connectDeviceSuccess` (on `data.success`). -/
def connectWirelessDevice (s : AppState) (ip port : String) : AppState :=
  let serial := ip ++ ":" ++ port
  let s1 := hideConnectModal s
  let s2 := { s1 with loadingShown := true }
  { s2 with connectCalls := s2.connectCalls ++ [serial] }

/-- Model of `handleWirelessStatus(data)` (main.js 287): the status switch. Note
which branches stop the poll: only `connected` and `timeout` do;
`pair_failed`, `connect_failed` and `error` only change the status line,
and `idle` or an unknown status is a no-op. -/
def handleWirelessStatus (d : WData) (s : AppState) : AppState :=
  if d.status = "waiting_scan" then
    updateWirelessStatus s "请使用手机扫描二维码" "pairing"
  else if d.status = "pairing" then
    updateWirelessStatus s "正在配对..." "pairing"
  else if d.status = "pair_success" then
    updateWirelessStatus s "配对成功，等待连接..." "pairing"
  else if d.status = "connecting" then
    updateWirelessStatus s "正在连接设备..." "pairing"
  else if d.status = "connected" then
    let s1 := stopWirelessPolling s
    let s2 := showWirelessSuccess s1 d.device_ip d.device_port
    connectWirelessDevice s2 d.device_ip d.device_port
  else if d.status = "pair_failed" ∨ d.status = "connect_failed" ∨
      d.status = "error" then
    updateWirelessStatus s (if d.message = "" then "操作失败" else d.message)
      "error"
  else if d.status = "timeout" then
    stopWirelessPolling (updateWirelessStatus s "配对超时，请重试" "error")
  else s

/-- One tick of the wireless poll interval (main.js 266-277): fetch the
status; a transport failure (`none`) is only logged, and a response is
handed to `handleWirelessStatus` only when `data.success` is true. -/
def pollTick (resp : Option WData) (s : AppState) : AppState :=
  match resp with
  | none => s
  | some d => if d.success then handleWirelessStatus d s else s

/-! ## Chat rendering (`handleStepResult` and helpers) -/

def isThinking : Entry → Bool
  | Entry.thinking _ => true
  | _ => false

/-- Model of `addMessage(role, content)` (main.js 659): append a chat bubble. -/
def addMessage (s : AppState) (role text : String) : AppState :=
  { s with chat := s.chat ++ [Entry.message role text] }

/-- Model of `addSystemMessage(message, type, action, debug)` (main.js 670). -/
def addSystemMessage (s : AppState) (text ty : String)
    (action : Option String) (debug : Option (String × String)) : AppState :=
  { s with chat := s.chat ++ [Entry.system ty text action debug] }

/-- The list update of `updateOrAddThinking` (main.js 695):
`querySelector('.thinking-message')` finds the first thinking entry in
document order and its text is replaced in place; if none exists a new
placeholder is appended at the end. -/
def updThink (t : String) : List Entry → List Entry
  | [] => [Entry.thinking t]
  | e :: rest =>
    if isThinking e then Entry.thinking t :: rest
    else e :: updThink t rest

def updateOrAddThinking (s : AppState) (t : String) : AppState :=
  { s with chat := updThink t s.chat }

/-- The list update of `removeThinking` (main.js 708): remove the first
thinking entry, if any. -/
def removeThinkingL : List Entry → List Entry
  | [] => []
  | e :: rest => if isThinking e then rest else e :: removeThinkingL rest

def removeThinking (s : AppState) : AppState :=
  { s with chat := removeThinkingL s.chat }

/-- The screenshot update at the top of `handleStepResult` (main.js 619):
applied whenever the event carries a screenshot, before the type switch. -/
def screenshotUpdate (d : StepData) (s : AppState) : AppState :=
  match d.screenshot with
  | some x => { s with deviceScreen := some x }
  | none => s

/-- The `switch (data.type)` of `handleStepResult` (main.js 623-654). -/
def kindDispatch (d : StepData) (s : AppState) : AppState :=
  if d.type = "start" ∨ d.type = "info" ∨ d.type = "update" then
    addSystemMessage s d.message "info" none none
  else if d.type = "thinking" then
    updateOrAddThinking s d.message
  else if d.type = "action" then
    addSystemMessage (removeThinking s) d.message "action" d.action d.debug
  else if d.type = "done" then
    addSystemMessage s d.message "success" none none
  else if d.type = "completed" then
    addSystemMessage s d.message "success" none d.debug
  else if d.type = "failed" ∨ d.type = "error" then
    addSystemMessage (removeThinking s) d.message "error" none d.debug
  else if d.type = "stopped" then
    addSystemMessage (removeThinking s) d.message "warning" none none
  else if d.type = "warning" then
    addSystemMessage s d.message "warning" none none
  else s

/-- Model of `handleStepResult(data)` (main.js 617): screenshot update first, then
the type dispatch (`scrollToBottom` is presentation). -/
def handleStepResult (d : StepData) (s : AppState) : AppState :=
  kindDispatch d (screenshotUpdate d s)

/-! ## `executeTask` (main.js 554-615) -/

/-- JavaScript `String.prototype.trim` whitespace (WhiteSpace and
LineTerminator code points). -/
def isJsWs (c : Char) : Bool :=
  let n := c.toNat
  decide (n = 9) || decide (n = 10) || decide (n = 11) || decide (n = 12) ||
  decide (n = 13) || decide (n = 32) || decide (n = 160) ||
  decide (n = 0x1680) || (decide (0x2000 ≤ n) && decide (n ≤ 0x200A)) ||
  decide (n = 0x2028) || decide (n = 0x2029) || decide (n = 0x202F) ||
  decide (n = 0x205F) || decide (n = 0x3000) || decide (n = 0xFEFF)

/-- Model of `input.trim()`. -/
def trimJS (str : String) : String :=
  ⟨((str.data.dropWhile isJsWs).reverse.dropWhile isJsWs).reverse⟩

/-- How the streaming response ends: `ok chunks` is a stream delivering the
given chunks and then closing normally; `netFail chunks msg` is a stream
that delivers the chunks and then raises (fetch rejection, read failure or
a consumer exception), caught by the `catch` block with message `msg`. -/
inductive StreamOutcome where
  | ok (chunks : List (List Nat))
  | netFail (chunks : List (List Nat)) (msg : String)
deriving DecidableEq

/-- Dispatching the decoded records in arrival order. Decoding does not
read the application state, so collecting the records first and folding
`handleStepResult` over them equals the interleaved read loop. -/
def dispatchRecords (s : AppState) (ds : List StepData) : AppState :=
  ds.foldl (fun st d => handleStepResult d st) s

/-- The `try` body from `reader.read()` onward plus the `catch` handler:
decode and dispatch the delivered chunks; on failure append the single
`执行出错` error message (main.js 610). -/
def consumeStream (parse : List Nat → Option StepData) (s : AppState) :
    StreamOutcome → AppState
  | StreamOutcome.ok chunks =>
      dispatchRecords s (runChunks parse chunks).recs
  | StreamOutcome.netFail chunks msg =>
      addSystemMessage (dispatchRecords s (runChunks parse chunks).recs)
        ("❌ 执行出错: " ++ msg) "error" none none

/-- Model of `executeTask()` (main.js 554): the guard chain (empty input, not
connected, already executing), then user-message render, executing state,
the `/api/chat/execute` request, stream consumption, and the `finally`
block (`setExecutingState(false); refreshScreen()`). -/
def executeTask (parse : List Nat → Option StepData) (s : AppState)
    (input : String) (outcome : StreamOutcome) : AppState :=
  let task := trimJS input
  if task = "" then s
  else if ¬ s.isConnected then showToast s "请先连接设备" "warning"
  else if s.isExecuting then showToast s "正在执行中..." "warning"
  else
    let s1 := { s with welcomeShown := false }
    let s2 := addMessage s1 "user" task
    let s3 := setExecutingState s2 true
    let s4 := { s3 with executeCalls := s3.executeCalls ++ [task] }
    let s5 := consumeStream parse s4 outcome
    let s6 := setExecutingState s5 false
    refreshScreen s6

/-- C6: a complete decoded line not beginning with the literal prefix `data: `
never produces a record, and a prefixed line whose remainder fails to parse
is dropped as exactly one record while every other line of the stream still
contributes its record — running the reader over the lines around the
malformed one yields exactly the records of those lines, so one malformed
record never aborts the session.
-/
theorem malformed_line_dropped {α : Type} (parse : List Nat → Option α)
    (pre post : List (List Nat)) (bad : List Nat)
    (hval : ∀ l ∈ pre ++ [bad] ++ post, ∀ c ∈ l, c < 0x110000 ∧ c ≠ 10)
    (hbad : lineRecord parse bad = none) :
    (runChunks parse [encodeLines (pre ++ [bad] ++ post)]).recs
        = (runChunks parse [encodeLines pre]).recs
            ++ (runChunks parse [encodeLines post]).recs ∧
    ∀ line : List Nat, ¬ dataMark.isPrefixOf line →
      lineRecord parse line = none := by
  constructor
  · have hpre : ∀ l ∈ pre, ∀ c ∈ l, c < 0x110000 ∧ c ≠ 10 :=
      fun l hl => hval l (by simp [hl])
    have hpost : ∀ l ∈ post, ∀ c ∈ l, c < 0x110000 ∧ c ≠ 10 :=
      fun l hl => hval l (by simp [hl])
    rw [runChunks_encodeLines parse _ hval _ (by simp),
        runChunks_encodeLines parse pre hpre _ (by simp),
        runChunks_encodeLines parse post hpost _ (by simp)]
    simp [List.filterMap_append, hbad]
  · intro line h
    simp [lineRecord, h]

/-- Witness for C6: stream `data: x`, `oops`, `data: !`, `data: y` where the
parser accepts single printable payloads but rejects `!`. -/
theorem malformed_line_dropped_witness :
    (runChunks (fun l => if l = [33] then none else some l)
        [encodeLines [[100, 97, 116, 97, 58, 32, 120], [111, 111, 112, 115],
                      [100, 97, 116, 97, 58, 32, 33],
                      [100, 97, 116, 97, 58, 32, 121]]]).recs
      = (runChunks (fun l => if l = [33] then none else some l)
          [encodeLines [[100, 97, 116, 97, 58, 32, 120],
                        [111, 111, 112, 115]]]).recs
        ++ (runChunks (fun l => if l = [33] then none else some l)
            [encodeLines [[100, 97, 116, 97, 58, 32, 121]]]).recs ∧
    ∀ line : List Nat, ¬ dataMark.isPrefixOf line →
      lineRecord (fun l => if l = [33] then none else some l) line = none :=
  malformed_line_dropped (fun l => if l = [33] then none else some l)
    [[100, 97, 116, 97, 58, 32, 120], [111, 111, 112, 115]]
    [[100, 97, 116, 97, 58, 32, 121]]
    [100, 97, 116, 97, 58, 32, 33]
    (by decide) (by decide)

/-- C10: a poll tick whose status response has `success: false` is silently
ignored — the state (including the live poll timer) is unchanged, so no
transition occurs and polling continues; only `success: true` responses are
mapped through the status switch.
-/
theorem poll_failure_ignored (d : WData) (s : AppState)
    (h : d.success = false) :
    pollTick (some d) s = s ∧
    ∀ d' : WData, d'.success = true →
      pollTick (some d') s = handleWirelessStatus d' s := by
  constructor
  · simp [pollTick, h]
  · intro d' h'
    simp [pollTick, h']

/-- Witness for C10: a concrete failed status response against a state with
a live poll. -/
theorem poll_failure_ignored_witness :
    pollTick (some ⟨false, "pairing", "", "", ""⟩)
        { initApp with wirelessPollingInterval := some 1,
                       world := ⟨2, [(1, TKind.wireless)]⟩ }
      = { initApp with wirelessPollingInterval := some 1,
                       world := ⟨2, [(1, TKind.wireless)]⟩ } ∧
    ∀ d' : WData, d'.success = true →
      pollTick (some d')
          { initApp with wirelessPollingInterval := some 1,
                         world := ⟨2, [(1, TKind.wireless)]⟩ }
        = handleWirelessStatus d'
            { initApp with wirelessPollingInterval := some 1,
                           world := ⟨2, [(1, TKind.wireless)]⟩ } :=
  poll_failure_ignored ⟨false, "pairing", "", "", ""⟩ _ rfl

/-- C3 counterexample: with a live poll timer, a `pair_failed` status does NOT
stop the poll (`wirelessPollingInterval` stays set and the interval stays
live), and a `connected` status arriving afterwards is still processed —
it triggers the automatic device-connect call — so a failure status is not
a terminal state for the session.
-/
theorem wireless_failure_not_terminal_counterexample :
    ((handleWirelessStatus ⟨true, "pair_failed", "", "", ""⟩
        { initApp with wirelessPollingInterval := some 1,
                       world := ⟨2, [(1, TKind.wireless)]⟩ }).wirelessPollingInterval
      = some 1) ∧
    ((handleWirelessStatus ⟨true, "pair_failed", "", "", ""⟩
        { initApp with wirelessPollingInterval := some 1,
                       world := ⟨2, [(1, TKind.wireless)]⟩ }).world.live
      = [(1, TKind.wireless)]) ∧
    ((handleWirelessStatus ⟨true, "connected", "", "10.0.0.5", "5555"⟩
        (handleWirelessStatus ⟨true, "pair_failed", "", "", ""⟩
          { initApp with wirelessPollingInterval := some 1,
                         world := ⟨2, [(1, TKind.wireless)]⟩ })).connectCalls
      = ["10.0.0.5:5555"]) := by
  decide

/-- C3 amended: a `pair_failed`, `connect_failed` or `error` status only
updates the status line to an error display; it does not stop the poll
task (handle and timer world unchanged), and later statuses are processed
normally.
-/
theorem wireless_failure_status_behavior (d : WData) (s : AppState)
    (h : d.status = "pair_failed" ∨ d.status = "connect_failed" ∨
      d.status = "error") :
    handleWirelessStatus d s
      = updateWirelessStatus s
          (if d.message = "" then "操作失败" else d.message) "error" ∧
    (handleWirelessStatus d s).wirelessPollingInterval
      = s.wirelessPollingInterval ∧
    (handleWirelessStatus d s).world = s.world := by
  have e : handleWirelessStatus d s
      = updateWirelessStatus s
          (if d.message = "" then "操作失败" else d.message) "error" := by
    unfold handleWirelessStatus
    rcases h with h | h | h <;> simp [h]
  exact ⟨e, by rw [e]; rfl, by rw [e]; rfl⟩

/-- Witness for the amended C3 at a concrete failed pairing state. -/
theorem wireless_failure_status_behavior_witness :
    handleWirelessStatus ⟨true, "connect_failed", "x", "", ""⟩
        { initApp with wirelessPollingInterval := some 1,
                       world := ⟨2, [(1, TKind.wireless)]⟩ }
      = updateWirelessStatus
          { initApp with wirelessPollingInterval := some 1,
                         world := ⟨2, [(1, TKind.wireless)]⟩ }
          (if ("x" : String) = "" then "操作失败" else "x") "error" ∧
    (handleWirelessStatus ⟨true, "connect_failed", "x", "", ""⟩
        { initApp with wirelessPollingInterval := some 1,
                       world := ⟨2, [(1, TKind.wireless)]⟩ }).wirelessPollingInterval
      = some 1 ∧
    (handleWirelessStatus ⟨true, "connect_failed", "x", "", ""⟩
        { initApp with wirelessPollingInterval := some 1,
                       world := ⟨2, [(1, TKind.wireless)]⟩ }).world
      = ⟨2, [(1, TKind.wireless)]⟩ :=
  wireless_failure_status_behavior ⟨true, "connect_failed", "x", "", ""⟩
    _ (Or.inr (Or.inl rfl))

/-- C9: any `screenshot` field on a dispatched event updates the displayed
device frame regardless of the event's kind (including unknown kinds), and
the update is independent of the kind-specific message-render step, which
never touches the device frame and runs on the already-updated state.
-/
theorem screenshot_always_applied (d : StepData) (s : AppState) :
    ((handleStepResult d s).deviceScreen =
      match d.screenshot with
      | some x => some x
      | none => s.deviceScreen) ∧
    handleStepResult d s = kindDispatch d (screenshotUpdate d s) ∧
    (∀ d' : StepData, ∀ s' : AppState,
      (kindDispatch d' s').deviceScreen = s'.deviceScreen) := by
  have hk : ∀ d' : StepData, ∀ s' : AppState,
      (kindDispatch d' s').deviceScreen = s'.deviceScreen := by
    intro d' s'
    unfold kindDispatch
    split_ifs <;> rfl
  refine ⟨?_, rfl, hk⟩
  rw [handleStepResult, hk]
  unfold screenshotUpdate
  cases d.screenshot <;> rfl

/-! ### Thinking placeholder coalescing -/

def countThinking (l : List Entry) : Nat := l.countP isThinking

theorem countThinking_cons (e : Entry) (l : List Entry) :
    countThinking (e :: l)
      = countThinking l + (if isThinking e then 1 else 0) := by
  simp [countThinking, List.countP_cons]

theorem updThink_of_no_thinking (t : String) (l : List Entry)
    (h : countThinking l = 0) :
    updThink t l = l ++ [Entry.thinking t] := by
  induction l with
  | nil => rfl
  | cons e l ih =>
    rw [countThinking_cons] at h
    have he : isThinking e = false := by
      cases hb : isThinking e
      · rfl
      · rw [hb] at h; simp at h
    rw [he] at h
    simp only [Bool.false_eq_true, if_false, Nat.add_zero] at h
    rw [updThink, he]
    simp only [Bool.false_eq_true, if_false]
    rw [ih h]
    rfl

theorem updThink_replaces (t x : String) (l : List Entry)
    (h : countThinking l = 0) :
    updThink t (l ++ [Entry.thinking x]) = l ++ [Entry.thinking t] := by
  induction l with
  | nil => rfl
  | cons e l ih =>
    rw [countThinking_cons] at h
    have he : isThinking e = false := by
      cases hb : isThinking e
      · rfl
      · rw [hb] at h; simp at h
    rw [he] at h
    simp only [Bool.false_eq_true, if_false, Nat.add_zero] at h
    rw [List.cons_append, updThink, he]
    simp only [Bool.false_eq_true, if_false]
    rw [ih h]
    rfl

theorem removeThinkingL_removes (x : String) (l : List Entry)
    (h : countThinking l = 0) :
    removeThinkingL (l ++ [Entry.thinking x]) = l := by
  induction l with
  | nil => rfl
  | cons e l ih =>
    rw [countThinking_cons] at h
    have he : isThinking e = false := by
      cases hb : isThinking e
      · rfl
      · rw [hb] at h; simp at h
    rw [he] at h
    simp only [Bool.false_eq_true, if_false, Nat.add_zero] at h
    rw [List.cons_append, removeThinkingL, he]
    simp only [Bool.false_eq_true, if_false]
    rw [ih h]

theorem countThinking_append (a b : List Entry) :
    countThinking (a ++ b) = countThinking a + countThinking b := by
  simp [countThinking, List.countP_append]

/-- C7: dispatching `thinking("A")`, `thinking("B")`, `action(...)` in order in
a session whose log holds no thinking placeholder: after each event the log
holds at most one thinking placeholder; the second `thinking` replaces the
placeholder's text in place (showing `B`) rather than appending a second
one; and the `action` event removes the placeholder and renders exactly one
action-style message.
-/
theorem thinking_coalesce (s : AppState) (mA mB mAct : String)
    (act : Option String) (dbg : Option (String × String))
    (h : countThinking s.chat = 0) :
    (handleStepResult ⟨"thinking", mA, none, none, none⟩ s).chat
        = s.chat ++ [Entry.thinking mA] ∧
    countThinking
        (handleStepResult ⟨"thinking", mA, none, none, none⟩ s).chat = 1 ∧
    (handleStepResult ⟨"thinking", mB, none, none, none⟩
        (handleStepResult ⟨"thinking", mA, none, none, none⟩ s)).chat
        = s.chat ++ [Entry.thinking mB] ∧
    countThinking
        (handleStepResult ⟨"thinking", mB, none, none, none⟩
          (handleStepResult ⟨"thinking", mA, none, none, none⟩ s)).chat = 1 ∧
    (handleStepResult ⟨"action", mAct, none, act, dbg⟩
        (handleStepResult ⟨"thinking", mB, none, none, none⟩
          (handleStepResult ⟨"thinking", mA, none, none, none⟩ s))).chat
        = s.chat ++ [Entry.system "action" mAct act dbg] ∧
    countThinking
        (handleStepResult ⟨"action", mAct, none, act, dbg⟩
          (handleStepResult ⟨"thinking", mB, none, none, none⟩
            (handleStepResult ⟨"thinking", mA, none, none, none⟩ s))).chat
        = 0 := by
  have eth : ∀ (m : String) (s' : AppState),
      handleStepResult ⟨"thinking", m, none, none, none⟩ s'
        = updateOrAddThinking s' m := by
    intro m s'
    simp [handleStepResult, screenshotUpdate, kindDispatch]
  have eac : ∀ (s' : AppState),
      handleStepResult ⟨"action", mAct, none, act, dbg⟩ s'
        = addSystemMessage (removeThinking s') mAct "action" act dbg := by
    intro s'
    simp [handleStepResult, screenshotUpdate, kindDispatch]
  have c1 : (handleStepResult ⟨"thinking", mA, none, none, none⟩ s).chat
      = s.chat ++ [Entry.thinking mA] := by
    rw [eth]
    show updThink mA s.chat = _
    exact updThink_of_no_thinking mA s.chat h
  have c2 : (handleStepResult ⟨"thinking", mB, none, none, none⟩
      (handleStepResult ⟨"thinking", mA, none, none, none⟩ s)).chat
      = s.chat ++ [Entry.thinking mB] := by
    rw [eth]
    show updThink mB (handleStepResult ⟨"thinking", mA, none, none, none⟩ s).chat = _
    rw [c1]
    exact updThink_replaces mB mA s.chat h
  have c3 : (handleStepResult ⟨"action", mAct, none, act, dbg⟩
      (handleStepResult ⟨"thinking", mB, none, none, none⟩
        (handleStepResult ⟨"thinking", mA, none, none, none⟩ s))).chat
      = s.chat ++ [Entry.system "action" mAct act dbg] := by
    rw [eac]
    show removeThinkingL (handleStepResult ⟨"thinking", mB, none, none, none⟩
        (handleStepResult ⟨"thinking", mA, none, none, none⟩ s)).chat
        ++ [Entry.system "action" mAct act dbg] = _
    rw [c2, removeThinkingL_removes mB s.chat h]
  refine ⟨c1, ?_, c2, ?_, c3, ?_⟩
  · rw [c1, countThinking_append, h]
    rfl
  · rw [c2, countThinking_append, h]
    rfl
  · rw [c3, countThinking_append, h]
    rfl

/-- Witness for C7 from an empty chat log. -/
theorem thinking_coalesce_witness :
    (handleStepResult ⟨"thinking", "A", none, none, none⟩ initApp).chat
        = initApp.chat ++ [Entry.thinking "A"] ∧
    countThinking
        (handleStepResult ⟨"thinking", "A", none, none, none⟩ initApp).chat = 1 ∧
    (handleStepResult ⟨"thinking", "B", none, none, none⟩
        (handleStepResult ⟨"thinking", "A", none, none, none⟩ initApp)).chat
        = initApp.chat ++ [Entry.thinking "B"] ∧
    countThinking
        (handleStepResult ⟨"thinking", "B", none, none, none⟩
          (handleStepResult ⟨"thinking", "A", none, none, none⟩ initApp)).chat
        = 1 ∧
    (handleStepResult ⟨"action", "tap", none, some "a", none⟩
        (handleStepResult ⟨"thinking", "B", none, none, none⟩
          (handleStepResult ⟨"thinking", "A", none, none, none⟩ initApp))).chat
        = initApp.chat ++ [Entry.system "action" "tap" (some "a") none] ∧
    countThinking
        (handleStepResult ⟨"action", "tap", none, some "a", none⟩
          (handleStepResult ⟨"thinking", "B", none, none, none⟩
            (handleStepResult ⟨"thinking", "A", none, none, none⟩ initApp))).chat
        = 0 :=
  thinking_coalesce initApp "A" "B" "tap" (some "a") none rfl

/-! ### Timer exclusivity -/

/-- The handles of the live intervals of one kind. -/
def kindIds (k : TKind) (l : List (Nat × TKind)) : List Nat :=
  (l.filter (fun p => decide (p.2 = k))).map (fun p => p.1)

/-- How many intervals of one kind are live. -/
def countKind (k : TKind) (l : List (Nat × TKind)) : Nat :=
  (kindIds k l).length

theorem kindIds_filter (k : TKind) (i : Nat) (l : List (Nat × TKind)) :
    kindIds k (l.filter (fun p => p.1 != i))
      = (kindIds k l).filter (fun x => x != i) := by
  unfold kindIds
  rw [List.filter_filter, List.filter_map, List.filter_filter]
  congr 1
  apply List.filter_congr
  intro a _
  simp [Bool.and_comm, Function.comp]

theorem kindIds_append (k : TKind) (l1 l2 : List (Nat × TKind)) :
    kindIds k (l1 ++ l2) = kindIds k l1 ++ kindIds k l2 := by
  unfold kindIds
  rw [List.filter_append, List.map_append]

theorem kindIds_mem (k : TKind) (l : List (Nat × TKind)) :
    ∀ x ∈ kindIds k l, (x, k) ∈ l := by
  intro x hx
  rcases List.mem_map.mp hx with ⟨p, hp, rfl⟩
  have h2 := List.of_mem_filter hp
  simp only [decide_eq_true_eq] at h2
  have := List.mem_of_mem_filter hp
  rwa [← h2]

/-- The timer-world invariant maintained by the wireless-poll operations:
all live handles are below the allocator counter, and the stored handle
matches exactly the live wireless intervals. -/
def WInv (s : AppState) : Prop :=
  (∀ p ∈ s.world.live, p.1 < s.world.nextId) ∧
  (match s.wirelessPollingInterval with
   | none => kindIds TKind.wireless s.world.live = []
   | some i => kindIds TKind.wireless s.world.live = [i])

/-- C2 counterexample: connecting a device successfully twice calls
`startScreenRefresh` twice; the second call overwrites the stored handle
without `clearInterval`, leaving two live screen-refresh intervals — so a
start call does not cancel the existing timer of its kind, and more than
one timer of the screen-refresh kind can be live at once.
-/
theorem screen_refresh_timer_leak :
    countKind TKind.screen
        (connectDeviceSuccess (connectDeviceSuccess initApp)).world.live = 2 ∧
    (connectDeviceSuccess (connectDeviceSuccess initApp)).world.live
      = [(1, TKind.screen), (2, TKind.screen)] := by
  decide

/-- C2 amended: `startWirelessPolling` always cancels any previous pairing
poll before starting a new one, so exactly one wireless-poll interval is
live afterwards and the invariant is preserved; `startScreenRefresh`, by
contrast, never cancels: it always adds one more live screen-refresh
interval on top of those already live.
-/
theorem timer_restart_behavior (s : AppState) (h : WInv s) :
    countKind TKind.wireless (startWirelessPolling s).world.live = 1 ∧
    WInv (startWirelessPolling s) ∧
    countKind TKind.screen (startScreenRefresh s).world.live
      = countKind TKind.screen s.world.live + 1 := by
  obtain ⟨hfresh, hmatch⟩ := h
  have hstop : kindIds TKind.wireless (stopWirelessPolling s).world.live = []
      ∧ (∀ p ∈ (stopWirelessPolling s).world.live,
          p.1 < (stopWirelessPolling s).world.nextId) := by
    unfold stopWirelessPolling
    cases hw : s.wirelessPollingInterval with
    | none =>
      rw [hw] at hmatch
      exact ⟨hmatch, hfresh⟩
    | some i =>
      rw [hw] at hmatch
      constructor
      · show kindIds TKind.wireless
            (s.world.live.filter (fun p => p.1 != i)) = []
        rw [kindIds_filter, hmatch]
        simp
      · intro p hp
        exact hfresh p (List.mem_of_mem_filter hp)
  have hstart : startWirelessPolling s =
      { stopWirelessPolling s with
          world := ⟨(stopWirelessPolling s).world.nextId + 1,
                    (stopWirelessPolling s).world.live ++
                      [((stopWirelessPolling s).world.nextId, TKind.wireless)]⟩,
          wirelessPollingInterval :=
            some (stopWirelessPolling s).world.nextId } := rfl
  have hids : kindIds TKind.wireless (startWirelessPolling s).world.live
      = [(stopWirelessPolling s).world.nextId] := by
    rw [hstart]
    show kindIds TKind.wireless
        ((stopWirelessPolling s).world.live ++
          [((stopWirelessPolling s).world.nextId, TKind.wireless)]) = _
    rw [kindIds_append, hstop.1]
    rfl
  refine ⟨?_, ⟨?_, ?_⟩, ?_⟩
  · rw [countKind, hids]
    rfl
  · rw [hstart]
    intro p hp
    rcases List.mem_append.mp hp with hp | hp
    · have := hstop.2 p hp
      simp only []
      omega
    · simp at hp
      simp [hp]
  · rw [hstart]
    show kindIds TKind.wireless
        ((stopWirelessPolling s).world.live ++
          [((stopWirelessPolling s).world.nextId, TKind.wireless)]) =
      [(stopWirelessPolling s).world.nextId]
    rw [kindIds_append, hstop.1]
    rfl
  · have hrw : (refreshScreen s).world = s.world := by
      unfold refreshScreen showToast
      split <;> rfl
    have hsr : (startScreenRefresh s).world.live
        = s.world.live ++ [(s.world.nextId, TKind.screen)] := by
      unfold startScreenRefresh setIntervalW
      simp only [hrw]
    rw [countKind, hsr, kindIds_append]
    simp [countKind, kindIds]

/-- Witness for the amended C2 in a state with a live poll to cancel. -/
theorem timer_restart_behavior_witness :
    countKind TKind.wireless
        (startWirelessPolling
          { initApp with wirelessPollingInterval := some 1,
                         world := ⟨2, [(1, TKind.wireless)]⟩ }).world.live = 1 ∧
    WInv (startWirelessPolling
          { initApp with wirelessPollingInterval := some 1,
                         world := ⟨2, [(1, TKind.wireless)]⟩ }) ∧
    countKind TKind.screen
        (startScreenRefresh
          { initApp with wirelessPollingInterval := some 1,
                         world := ⟨2, [(1, TKind.wireless)]⟩ }).world.live
      = countKind TKind.screen
          ({ initApp with wirelessPollingInterval := some 1,
                          world := ⟨2, [(1, TKind.wireless)]⟩ }
            : AppState).world.live + 1 :=
  timer_restart_behavior
    { initApp with wirelessPollingInterval := some 1,
                   world := ⟨2, [(1, TKind.wireless)]⟩ }
    (by refine ⟨?_, ?_⟩
        · intro p hp
          simp at hp
          simp [hp]
        · decide)

/-- C5: feeding the poll statuses `waiting_scan, pairing, pair_success,
connecting, connected(ip, port)` in order: reaching `connected` stops the
poll immediately (handle cleared and no wireless interval left live),
surfaces the device address, and triggers exactly one automatic downstream
`/api/device/connect` call with serial `ip:port`, with no user
confirmation step in between.
-/
theorem pairing_connected_flow (ip port : String) (s : AppState)
    (h : WInv s) :
    (List.foldl (fun st d => handleWirelessStatus d st) s
        [⟨true, "waiting_scan", "", "", ""⟩, ⟨true, "pairing", "", "", ""⟩,
         ⟨true, "pair_success", "", "", ""⟩, ⟨true, "connecting", "", "", ""⟩,
         ⟨true, "connected", "", ip, port⟩]).wirelessPollingInterval
      = none ∧
    kindIds TKind.wireless
        (List.foldl (fun st d => handleWirelessStatus d st) s
          [⟨true, "waiting_scan", "", "", ""⟩, ⟨true, "pairing", "", "", ""⟩,
           ⟨true, "pair_success", "", "", ""⟩, ⟨true, "connecting", "", "", ""⟩,
           ⟨true, "connected", "", ip, port⟩]).world.live = [] ∧
    (List.foldl (fun st d => handleWirelessStatus d st) s
        [⟨true, "waiting_scan", "", "", ""⟩, ⟨true, "pairing", "", "", ""⟩,
         ⟨true, "pair_success", "", "", ""⟩, ⟨true, "connecting", "", "", ""⟩,
         ⟨true, "connected", "", ip, port⟩]).wirelessDeviceText
      = some ("设备地址: " ++ ip ++ ":" ++ port) ∧
    (List.foldl (fun st d => handleWirelessStatus d st) s
        [⟨true, "waiting_scan", "", "", ""⟩, ⟨true, "pairing", "", "", ""⟩,
         ⟨true, "pair_success", "", "", ""⟩, ⟨true, "connecting", "", "", ""⟩,
         ⟨true, "connected", "", ip, port⟩]).connectCalls
      = s.connectCalls ++ [ip ++ ":" ++ port] := by
  obtain ⟨hfresh, hmatch⟩ := h
  have e1 : ∀ st : AppState,
      handleWirelessStatus ⟨true, "waiting_scan", "", "", ""⟩ st
        = updateWirelessStatus st "请使用手机扫描二维码" "pairing" := by
    intro st; simp [handleWirelessStatus]
  have e2 : ∀ st : AppState,
      handleWirelessStatus ⟨true, "pairing", "", "", ""⟩ st
        = updateWirelessStatus st "正在配对..." "pairing" := by
    intro st; simp [handleWirelessStatus]
  have e3 : ∀ st : AppState,
      handleWirelessStatus ⟨true, "pair_success", "", "", ""⟩ st
        = updateWirelessStatus st "配对成功，等待连接..." "pairing" := by
    intro st; simp [handleWirelessStatus]
  have e4 : ∀ st : AppState,
      handleWirelessStatus ⟨true, "connecting", "", "", ""⟩ st
        = updateWirelessStatus st "正在连接设备..." "pairing" := by
    intro st; simp [handleWirelessStatus]
  have e5 : ∀ st : AppState,
      handleWirelessStatus ⟨true, "connected", "", ip, port⟩ st
        = connectWirelessDevice
            (showWirelessSuccess (stopWirelessPolling st) ip port) ip port := by
    intro st; simp [handleWirelessStatus]
  simp only [List.foldl, e1, e2, e3, e4, e5]
  cases hw : s.wirelessPollingInterval with
  | none =>
    rw [hw] at hmatch
    refine ⟨?_, ?_, ?_, ?_⟩ <;>
      simp [updateWirelessStatus, stopWirelessPolling, showWirelessSuccess,
        connectWirelessDevice, hideConnectModal, clearIntervalW, hw, hmatch]
  | some i =>
    rw [hw] at hmatch
    refine ⟨?_, ?_, ?_, ?_⟩ <;>
      simp [updateWirelessStatus, stopWirelessPolling, showWirelessSuccess,
        connectWirelessDevice, hideConnectModal, clearIntervalW, hw,
        kindIds_filter, hmatch]

/-- Witness for C5: the spec's test vector, address `(10.0.0.5, 5555)`. -/
theorem pairing_connected_flow_witness :
    (List.foldl (fun st d => handleWirelessStatus d st)
        { initApp with wirelessPollingInterval := some 1,
                       world := ⟨2, [(1, TKind.wireless)]⟩ }
        [⟨true, "waiting_scan", "", "", ""⟩, ⟨true, "pairing", "", "", ""⟩,
         ⟨true, "pair_success", "", "", ""⟩, ⟨true, "connecting", "", "", ""⟩,
         ⟨true, "connected", "", "10.0.0.5", "5555"⟩]).wirelessPollingInterval
      = none ∧
    kindIds TKind.wireless
        (List.foldl (fun st d => handleWirelessStatus d st)
          { initApp with wirelessPollingInterval := some 1,
                         world := ⟨2, [(1, TKind.wireless)]⟩ }
          [⟨true, "waiting_scan", "", "", ""⟩, ⟨true, "pairing", "", "", ""⟩,
           ⟨true, "pair_success", "", "", ""⟩, ⟨true, "connecting", "", "", ""⟩,
           ⟨true, "connected", "", "10.0.0.5", "5555"⟩]).world.live = [] ∧
    (List.foldl (fun st d => handleWirelessStatus d st)
        { initApp with wirelessPollingInterval := some 1,
                       world := ⟨2, [(1, TKind.wireless)]⟩ }
        [⟨true, "waiting_scan", "", "", ""⟩, ⟨true, "pairing", "", "", ""⟩,
         ⟨true, "pair_success", "", "", ""⟩, ⟨true, "connecting", "", "", ""⟩,
         ⟨true, "connected", "", "10.0.0.5", "5555"⟩]).wirelessDeviceText
      = some ("设备地址: " ++ "10.0.0.5" ++ ":" ++ "5555") ∧
    (List.foldl (fun st d => handleWirelessStatus d st)
        { initApp with wirelessPollingInterval := some 1,
                       world := ⟨2, [(1, TKind.wireless)]⟩ }
        [⟨true, "waiting_scan", "", "", ""⟩, ⟨true, "pairing", "", "", ""⟩,
         ⟨true, "pair_success", "", "", ""⟩, ⟨true, "connecting", "", "", ""⟩,
         ⟨true, "connected", "", "10.0.0.5", "5555"⟩]).connectCalls
      = ({ initApp with wirelessPollingInterval := some 1,
                        world := ⟨2, [(1, TKind.wireless)]⟩ }
          : AppState).connectCalls ++ ["10.0.0.5" ++ ":" ++ "5555"] :=
  pairing_connected_flow "10.0.0.5" "5555"
    { initApp with wirelessPollingInterval := some 1,
                   world := ⟨2, [(1, TKind.wireless)]⟩ }
    (by refine ⟨?_, ?_⟩
        · intro p hp
          simp at hp
          simp [hp]
        · decide)

/-! ### Guards and termination of `executeTask` -/

theorem handleStepResult_preserves (d : StepData) (s : AppState) :
    (handleStepResult d s).isConnected = s.isConnected ∧
    (handleStepResult d s).isExecuting = s.isExecuting ∧
    (handleStepResult d s).inputDisabled = s.inputDisabled ∧
    (handleStepResult d s).toasts = s.toasts ∧
    (handleStepResult d s).executeCalls = s.executeCalls ∧
    (handleStepResult d s).refreshCalls = s.refreshCalls := by
  unfold handleStepResult kindDispatch screenshotUpdate
  cases d.screenshot <;> split_ifs <;>
    exact ⟨rfl, rfl, rfl, rfl, rfl, rfl⟩

theorem dispatchRecords_preserves (ds : List StepData) (s : AppState) :
    (dispatchRecords s ds).isConnected = s.isConnected ∧
    (dispatchRecords s ds).isExecuting = s.isExecuting ∧
    (dispatchRecords s ds).inputDisabled = s.inputDisabled ∧
    (dispatchRecords s ds).toasts = s.toasts ∧
    (dispatchRecords s ds).executeCalls = s.executeCalls ∧
    (dispatchRecords s ds).refreshCalls = s.refreshCalls := by
  induction ds generalizing s with
  | nil => exact ⟨rfl, rfl, rfl, rfl, rfl, rfl⟩
  | cons d ds ih =>
    have h1 := handleStepResult_preserves d s
    have h2 := ih (handleStepResult d s)
    refine ⟨h2.1.trans h1.1, h2.2.1.trans h1.2.1, h2.2.2.1.trans h1.2.2.1,
      h2.2.2.2.1.trans h1.2.2.2.1, h2.2.2.2.2.1.trans h1.2.2.2.2.1,
      h2.2.2.2.2.2.trans h1.2.2.2.2.2⟩

theorem consumeStream_preserves (parse : List Nat → Option StepData)
    (s : AppState) (oc : StreamOutcome) :
    (consumeStream parse s oc).isConnected = s.isConnected ∧
    (consumeStream parse s oc).executeCalls = s.executeCalls ∧
    (consumeStream parse s oc).refreshCalls = s.refreshCalls ∧
    (consumeStream parse s oc).toasts = s.toasts := by
  cases oc with
  | ok chunks =>
    have h := dispatchRecords_preserves (runChunks parse chunks).recs s
    exact ⟨h.1, h.2.2.2.2.1, h.2.2.2.2.2, h.2.2.2.1⟩
  | netFail chunks msg =>
    have h := dispatchRecords_preserves (runChunks parse chunks).recs s
    exact ⟨h.1, h.2.2.2.2.1, h.2.2.2.2.2, h.2.2.2.1⟩

theorem refreshScreen_connected (s : AppState) (h : s.isConnected = true) :
    refreshScreen s = { s with refreshCalls := s.refreshCalls + 1 } := by
  unfold refreshScreen
  rw [h]
  simp

/-- C4 counterexample: with a session already executing, starting a task with
empty input returns silently before the connection/activity checks — the
state is unchanged and in particular no `AlreadyRunning` warning is
surfaced — while the same call with nonempty input does surface the
`AlreadyRunning` warning; so the failure mode is not independent of the
input text.
-/
theorem execute_empty_input_counterexample :
    executeTask (fun _ => none)
        { initApp with isConnected := true, isExecuting := true } ""
        (StreamOutcome.ok [])
      = { initApp with isConnected := true, isExecuting := true } ∧
    (executeTask (fun _ => none)
        { initApp with isConnected := true, isExecuting := true } "task"
        (StreamOutcome.ok [])).toasts
      = [("正在执行中...", "warning")] := by
  constructor
  · rfl
  · rfl

/-- C4 amended: for input whose trimmed text is nonempty, starting a task
fails with the `NotConnected` warning when no device is connected and with
the `AlreadyRunning` warning when a session is already executing (checked
in that order); input whose trimmed text is empty fails silently before
those checks. In every failure case the state changes by at most the
warning toast: no session is created, nothing is rendered to the chat and
no network call is made.
-/
theorem execute_guard_order (parse : List Nat → Option StepData)
    (s : AppState) (input : String) (outcome : StreamOutcome) :
    (trimJS input = "" → executeTask parse s input outcome = s) ∧
    (¬ trimJS input = "" → s.isConnected = false →
      executeTask parse s input outcome = showToast s "请先连接设备" "warning") ∧
    (¬ trimJS input = "" → s.isConnected = true → s.isExecuting = true →
      executeTask parse s input outcome = showToast s "正在执行中..." "warning") := by
  refine ⟨?_, ?_, ?_⟩
  · intro h
    unfold executeTask
    rw [if_pos h]
  · intro h1 h2
    unfold executeTask
    rw [if_neg h1, if_pos (by rw [h2]; simp)]
  · intro h1 h2 h3
    unfold executeTask
    rw [if_neg h1, if_neg (by rw [h2]; simp), if_pos h3]

/-- Witness for the amended C4: its three failure scenarios at concrete
states. -/
theorem execute_guard_order_witness :
    executeTask (fun _ => none) initApp "  " (StreamOutcome.ok []) = initApp ∧
    executeTask (fun _ => none) initApp "hi" (StreamOutcome.ok [])
      = showToast initApp "请先连接设备" "warning" ∧
    executeTask (fun _ => none)
        { initApp with isConnected := true, isExecuting := true } "hi"
        (StreamOutcome.ok [])
      = showToast { initApp with isConnected := true, isExecuting := true }
          "正在执行中..." "warning" :=
  ⟨(execute_guard_order (fun _ => none) initApp "  "
      (StreamOutcome.ok [])).1 (by decide),
   (execute_guard_order (fun _ => none) initApp "hi"
      (StreamOutcome.ok [])).2.1 (by decide) rfl,
   (execute_guard_order (fun _ => none)
      { initApp with isConnected := true, isExecuting := true } "hi"
      (StreamOutcome.ok [])).2.2 (by decide) rfl rfl⟩

/-- C8: however the stream terminates (normal end after any chunks, or a
failure raised after any prefix of the stream — fetch rejection, read
error or consumer error), `executeTask` afterwards re-enables the input,
clears the executing flag, and issues exactly one immediate device-frame
refresh; the task is sent exactly once (no automatic retry), and a
transport failure additionally renders exactly one error message on top of
what the dispatched events rendered.
-/
theorem execution_termination_cleanup (parse : List Nat → Option StepData)
    (s : AppState) (input : String) (outcome : StreamOutcome)
    (h1 : ¬ trimJS input = "") (h2 : s.isConnected = true)
    (h3 : s.isExecuting = false) :
    (executeTask parse s input outcome).isExecuting = false ∧
    (executeTask parse s input outcome).inputDisabled = false ∧
    (executeTask parse s input outcome).refreshCalls = s.refreshCalls + 1 ∧
    (executeTask parse s input outcome).executeCalls
      = s.executeCalls ++ [trimJS input] ∧
    (∀ chunks msg, outcome = StreamOutcome.netFail chunks msg →
      (executeTask parse s input outcome).chat
        = (executeTask parse s input (StreamOutcome.ok chunks)).chat
            ++ [Entry.system "error" ("❌ 执行出错: " ++ msg) none none]) := by
  have hrun : ∀ oc : StreamOutcome, executeTask parse s input oc =
      refreshScreen (setExecutingState (consumeStream parse
        { s with welcomeShown := false,
                 chat := s.chat ++ [Entry.message "user" (trimJS input)],
                 isExecuting := true, inputDisabled := true,
                 executeCalls := s.executeCalls ++ [trimJS input] } oc)
        false) := by
    intro oc
    unfold executeTask
    rw [if_neg h1, if_neg (by rw [h2]; simp), if_neg (by rw [h3]; simp)]
    rfl
  have hpres := fun oc => consumeStream_preserves parse
    { s with welcomeShown := false,
             chat := s.chat ++ [Entry.message "user" (trimJS input)],
             isExecuting := true, inputDisabled := true,
             executeCalls := s.executeCalls ++ [trimJS input] } oc
  have hconn : ∀ oc : StreamOutcome,
      (setExecutingState (consumeStream parse
        { s with welcomeShown := false,
                 chat := s.chat ++ [Entry.message "user" (trimJS input)],
                 isExecuting := true, inputDisabled := true,
                 executeCalls := s.executeCalls ++ [trimJS input] } oc)
        false).isConnected = true := by
    intro oc
    show (consumeStream parse _ oc).isConnected = true
    rw [(hpres oc).1]
    exact h2
  have hfin : ∀ oc : StreamOutcome, executeTask parse s input oc =
      { setExecutingState (consumeStream parse
          { s with welcomeShown := false,
                   chat := s.chat ++ [Entry.message "user" (trimJS input)],
                   isExecuting := true, inputDisabled := true,
                   executeCalls := s.executeCalls ++ [trimJS input] } oc)
          false with
        refreshCalls := (consumeStream parse
          { s with welcomeShown := false,
                   chat := s.chat ++ [Entry.message "user" (trimJS input)],
                   isExecuting := true, inputDisabled := true,
                   executeCalls := s.executeCalls ++ [trimJS input] } oc).refreshCalls
          + 1 } := by
    intro oc
    rw [hrun oc, refreshScreen_connected _ (hconn oc)]
    rfl
  refine ⟨?_, ?_, ?_, ?_, ?_⟩
  · rw [hfin outcome]; rfl
  · rw [hfin outcome]; rfl
  · rw [hfin outcome]
    show (consumeStream parse _ outcome).refreshCalls + 1 = s.refreshCalls + 1
    rw [(hpres outcome).2.2.1]
  · rw [hfin outcome]
    show (consumeStream parse _ outcome).executeCalls
      = s.executeCalls ++ [trimJS input]
    rw [(hpres outcome).2.1]
  · intro chunks msg hoc
    subst hoc
    rw [hfin (StreamOutcome.netFail chunks msg), hfin (StreamOutcome.ok chunks)]
    show (consumeStream parse _ (StreamOutcome.netFail chunks msg)).chat
      = (consumeStream parse _ (StreamOutcome.ok chunks)).chat ++ _
    rfl

/-- Witness for C8 on a connected, idle state with a stream that fails
immediately. -/
theorem execution_termination_cleanup_witness :
    (executeTask (fun _ => none) { initApp with isConnected := true } "go"
        (StreamOutcome.netFail [] "boom")).isExecuting = false ∧
    (executeTask (fun _ => none) { initApp with isConnected := true } "go"
        (StreamOutcome.netFail [] "boom")).inputDisabled = false ∧
    (executeTask (fun _ => none) { initApp with isConnected := true } "go"
        (StreamOutcome.netFail [] "boom")).refreshCalls
      = ({ initApp with isConnected := true } : AppState).refreshCalls + 1 ∧
    (executeTask (fun _ => none) { initApp with isConnected := true } "go"
        (StreamOutcome.netFail [] "boom")).executeCalls
      = ({ initApp with isConnected := true } : AppState).executeCalls
          ++ [trimJS "go"] ∧
    (∀ chunks msg,
      StreamOutcome.netFail [] "boom" = StreamOutcome.netFail chunks msg →
      (executeTask (fun _ => none) { initApp with isConnected := true } "go"
          (StreamOutcome.netFail [] "boom")).chat
        = (executeTask (fun _ => none) { initApp with isConnected := true }
            "go" (StreamOutcome.ok chunks)).chat
            ++ [Entry.system "error" ("❌ 执行出错: " ++ msg) none none]) :=
  execution_termination_cleanup (fun _ => none)
    { initApp with isConnected := true } "go"
    (StreamOutcome.netFail [] "boom") (by decide) rfl rfl
